import Mathlib

/-! Logging integration of the mgo driver (`log.go`).

A shallow embedding of the logging hooks of the mgo driver: the two global
cells `globalLogger` and `globalDebug`, their setters and getters, and the
seven emission helpers `log`, `logln`, `logf`, `debug`, `debugln`, `debugf`
and `debugFunc`.

The program is sequential in this embedding.  Every call the helpers make on
something outside the file (a logger's `Output`, the producer handed to
`debugFunc`) is recorded, in order, in a trace carried by the world.  Such a
call returns a value and does not itself call back into `log.go`.

Package `fmt` belongs to the Go standard library, not to this file: the
helpers take its three functions as a parameter, over any type of operands.
-/

namespace mgo

/-! ## Package `fmt` -/

/-- The three functions of package `fmt` that `log.go` calls, over a type `α`
of operands (the values of the variadic `v ...interface{}` parameter). -/
structure Fmt (α : Type) where
  Sprint : List α → String
  Sprintln : List α → String
  Sprintf : String → List α → String

/-! ## Package `fmt` on strings, integers and booleans -/

/-- An operand whose dynamic type is `string`, `int` or `bool`. -/
inductive GoValue where
  | str (s : String)
  | int (n : Int)
  | bool (b : Bool)
  deriving DecidableEq, Repr

/-- Go's name of the dynamic type, as `reflect.TypeOf(arg).String()` prints it. -/
def GoValue.typeName : GoValue → List Char
  | .str _ => "string".data
  | .int _ => "int".data
  | .bool _ => "bool".data

/-- Whether the operand's kind is `reflect.String`. -/
def GoValue.isString : GoValue → Bool
  | .str _ => true
  | _ => false

/-- The default format of an operand (verb `%v`). -/
def GoValue.fmtV : GoValue → List Char
  | .str s => s.data
  | .int n => (toString n).data
  | .bool b => if b then "true".data else "false".data

/-- Go's rendering of a verb that does not apply to the operand:
`%!verb(type=value)`. -/
def fmt_badVerb (verb : Char) (arg : GoValue) : List Char :=
  '%' :: '!' :: verb :: '(' :: (arg.typeName ++ '=' :: arg.fmtV ++ [')'])

/-- The function `printArg` of package `fmt` for the verbs `v`, `d`, `s` and
`t`: `d` applies to an `int`, `s` to a `string`, `t` to a `bool`, and on
another operand each of them is a bad verb.  The result is `none` for every
other verb, which is not modelled. -/
def fmt_printArg (arg : GoValue) (verb : Char) : Option (List Char) :=
  if verb = 'v' then some arg.fmtV
  else if verb = 'd' then
    match arg with
    | .int n => some (toString n).data
    | _ => some (fmt_badVerb verb arg)
  else if verb = 's' then
    match arg with
    | .str s => some s.data
    | _ => some (fmt_badVerb verb arg)
  else if verb = 't' then
    match arg with
    | .bool b => some (if b then "true".data else "false".data)
    | _ => some (fmt_badVerb verb arg)
  else none

/-- The loop of `doPrint`: a space goes between two operands when neither is
a string. -/
def fmt_doPrint (prevString : Bool) (first : Bool) : List GoValue → List Char
  | [] => []
  | arg :: rest =>
    (if !first && !arg.isString && !prevString then [' '] else [])
      ++ arg.fmtV ++ fmt_doPrint arg.isString false rest

/-- The loop of `doPrintln`: a space goes between any two operands. -/
def fmt_doPrintln (first : Bool) : List GoValue → List Char
  | [] => []
  | arg :: rest =>
    (if !first then [' '] else []) ++ arg.fmtV ++ fmt_doPrintln false rest

/-- The tail `doPrintf` writes when operands are left over:
`%!(EXTRA type=value, type=value)`. -/
def fmt_extraArgs (first : Bool) : List GoValue → List Char
  | [] => []
  | arg :: rest =>
    (if !first then [',', ' '] else [])
      ++ arg.typeName ++ '=' :: arg.fmtV ++ fmt_extraArgs false rest

/-- The closing step of `doPrintf`. -/
def fmt_extra (a : List GoValue) : List Char :=
  if a.isEmpty then [] else "%!(EXTRA ".data ++ fmt_extraArgs true a ++ [')']

/-- The loop of `doPrintf` over the format's characters, for formats whose
directives are `%v`, `%d`, `%s`, `%t` and `%%`.  The result is `none` as soon
as `%` is followed by anything else (a flag, a width, a precision, an argument
index or another verb): those formats are not modelled. -/
def fmt_doPrintf : List Char → List GoValue → Option (List Char)
  | [], a => some (fmt_extra a)
  | c :: rest, a =>
    if c = '%' then
      match rest with
      | [] => some ("%!(NOVERB)".data ++ fmt_extra a)
      | verb :: rest2 =>
        if verb = '%' then (fmt_doPrintf rest2 a).map (fun out => '%' :: out)
        else if verb = 'v' ∨ verb = 'd' ∨ verb = 's' ∨ verb = 't' then
          match a with
          | [] =>
            (fmt_doPrintf rest2 []).map
              (fun out => '%' :: '!' :: verb :: "(MISSING)".data ++ out)
          | arg :: a2 =>
            match fmt_printArg arg verb, fmt_doPrintf rest2 a2 with
            | some shown, some out => some (shown ++ out)
            | _, _ => none
        else none
    else (fmt_doPrintf rest a).map (fun out => c :: out)

/-- The Go function `fmt.Sprint` on these operands. -/
def fmt_Sprint (v : List GoValue) : String :=
  String.mk (fmt_doPrint false true v)

/-- The Go function `fmt.Sprintln` on these operands. -/
def fmt_Sprintln (v : List GoValue) : String :=
  String.mk (fmt_doPrintln true v ++ ['\n'])

/-- The Go function `fmt.Sprintf` on these operands, where it is modelled:
`none` for a format outside the directives of `fmt_doPrintf`. -/
def fmt_Sprintf (format : String) (v : List GoValue) : Option String :=
  (fmt_doPrintf format.data v).map String.mk

/-- Package `fmt` on operands of type `string`, `int` and `bool`: `Sprint`
and `Sprintln` in full, `Sprintf` on the formats `fmt_Sprintf` models.  On
every other format `Sprintf` is the parameter `rest`, which stands for the
part of Go's `Sprintf` that is not modelled. -/
def goFmt (rest : String → List GoValue → String) : Fmt GoValue :=
  { Sprint := fmt_Sprint
    Sprintln := fmt_Sprintln
    Sprintf := fun format v => (fmt_Sprintf format v).getD (rest format v) }

/-! ## The logger interface and the world -/

/-- The interface `log_Logger`: an object with one method,
`Output(calldepth int, s string) error`.  `id` is the identity of the object
behind the interface value; `Output` gives the error the method returns
(`none` for a nil error). -/
structure log_Logger where
  id : Nat
  Output : Int → String → Option String

/-- A call the logging helpers make on something outside `log.go`. -/
inductive Event where
  /-- A call `logger.Output(calldepth, s)` on the logger with identity
  `logger`, which returned `err`. -/
  | output (logger : Nat) (calldepth : Int) (s : String) (err : Option String)
  /-- A call of the producer handed to `debugFunc`, which returned `out`. -/
  | produce (out : String)
  deriving DecidableEq, Repr

/-- The two global cells of `log.go` and the calls made so far.
`globalLogger` is the `unsafe.Pointer` cell: `none` is the nil pointer and
`some l` a pointer to a cell holding the interface value `l`.  `globalDebug`
is the `uint32` cell. -/
structure World where
  globalLogger : Option log_Logger
  globalDebug : Nat
  trace : List Event

/-- The world at program start: both cells hold their zero value. -/
def World.init : World :=
  { globalLogger := none, globalDebug := 0, trace := [] }

/-- The function `SetLogger`; a nil interface value is `none`. -/
def SetLogger (logger : Option log_Logger) (w : World) : World :=
  match logger with
  | none => { w with globalLogger := none }
  | some l => { w with globalLogger := some l }

/-- The function `getLogger`. -/
def getLogger (w : World) : Option log_Logger :=
  match w.globalLogger with
  | some logger => some logger
  | none => none

/-- The function `SetDebug`. -/
def SetDebug (debug : Bool) (w : World) : World :=
  let value : Nat := if debug then 1 else 0
  { w with globalDebug := value }

/-- The function `getDebug`. -/
def getDebug (w : World) : Bool :=
  w.globalDebug != 0

/-- The method call `logger.Output(calldepth, s)`: the call is recorded and
its error handed back to the caller. -/
def callOutput (logger : log_Logger) (calldepth : Int) (s : String) (w : World) :
    Option String × World :=
  let err := logger.Output calldepth s
  (err, { w with trace := w.trace ++ [Event.output logger.id calldepth s err] })

/-- The call `debugFunc()` of a producer: the call is recorded and its result
handed back to the caller. -/
def callProducer (producer : Unit → String) (w : World) : String × World :=
  let out := producer ()
  (out, { w with trace := w.trace ++ [Event.produce out] })

/-! ## The emission helpers -/

/-- The function `log`. -/
def log {α : Type} (fmt : Fmt α) (v : List α) (w : World) : World :=
  match getLogger w with
  | some logger => (callOutput logger 2 (fmt.Sprint v) w).2
  | none => w

/-- The function `logln`. -/
def logln {α : Type} (fmt : Fmt α) (v : List α) (w : World) : World :=
  match getLogger w with
  | some logger => (callOutput logger 2 (fmt.Sprintln v) w).2
  | none => w

/-- The function `logf`. -/
def logf {α : Type} (fmt : Fmt α) (format : String) (v : List α) (w : World) :
    World :=
  match getLogger w with
  | some logger => (callOutput logger 2 (fmt.Sprintf format v) w).2
  | none => w

/-- The function `debug`. -/
def debug {α : Type} (fmt : Fmt α) (v : List α) (w : World) : World :=
  match getLogger w with
  | some logger =>
    if getDebug w then (callOutput logger 2 (fmt.Sprint v) w).2 else w
  | none => w

/-- The function `debugln`. -/
def debugln {α : Type} (fmt : Fmt α) (v : List α) (w : World) : World :=
  match getLogger w with
  | some logger =>
    if getDebug w then (callOutput logger 2 (fmt.Sprintln v) w).2 else w
  | none => w

/-- The function `debugf`. -/
def debugf {α : Type} (fmt : Fmt α) (format : String) (v : List α) (w : World) :
    World :=
  match getLogger w with
  | some logger =>
    if getDebug w then (callOutput logger 2 (fmt.Sprintf format v) w).2 else w
  | none => w

/-- The function `debugFunc`. -/
def debugFunc (debugFunc : Unit → String) (w : World) : World :=
  match getLogger w with
  | some logger =>
    if getDebug w then
      let (out, w1) := callProducer debugFunc w
      if out ≠ "" then (callOutput logger 2 out w1).2 else w1
    else w
  | none => w

/-! ## Calls and runs -/

/-- A call of one of the seven emission helpers, with its arguments. -/
inductive Emission (α : Type) where
  | log (v : List α)
  | logln (v : List α)
  | logf (format : String) (v : List α)
  | debug (v : List α)
  | debugln (v : List α)
  | debugf (format : String) (v : List α)
  | debugFunc (producer : Unit → String)

/-- Runs the helper an emission names. -/
def Emission.run {α : Type} (fmt : Fmt α) : Emission α → World → World
  | .log v => mgo.log fmt v
  | .logln v => mgo.logln fmt v
  | .logf format v => mgo.logf fmt format v
  | .debug v => mgo.debug fmt v
  | .debugln v => mgo.debugln fmt v
  | .debugf format v => mgo.debugf fmt format v
  | .debugFunc producer => mgo.debugFunc producer

/-- A call into `log.go`: a setter or an emission helper. -/
inductive Call (α : Type) where
  | setLogger (logger : Option log_Logger)
  | setDebug (debug : Bool)
  | emit (e : Emission α)

/-- Runs one call. -/
def Call.run {α : Type} (fmt : Fmt α) : Call α → World → World
  | .setLogger logger => SetLogger logger
  | .setDebug debug => SetDebug debug
  | .emit e => e.run fmt

/-- Whether the call is a `SetLogger`. -/
def Call.isSetLogger {α : Type} : Call α → Bool
  | .setLogger _ => true
  | _ => false

/-- Runs a sequence of calls, first to last. -/
def runCalls {α : Type} (fmt : Fmt α) : List (Call α) → World → World
  | [], w => w
  | c :: cs, w => runCalls fmt cs (c.run fmt w)

/-- The events of `w2` after those of the earlier world `w1`. -/
def newEvents (w1 w2 : World) : List Event :=
  w2.trace.drop w1.trace.length

/-- Whether the event is a call of a logger's `Output`. -/
def Event.isOutput : Event → Bool
  | .output _ _ _ _ => true
  | .produce _ => false

/-- The number of `Output` calls among the events. -/
def outputCalls (es : List Event) : Nat :=
  (es.filter Event.isOutput).length

/-- The number of producer calls among the events. -/
def producerCalls (es : List Event) : Nat :=
  (es.filter (fun ev => !ev.isOutput)).length

/-- The event without the error its call returned. -/
def Event.forgetErr : Event → Event
  | .output l d s _ => .output l d s none
  | .produce out => .produce out

/-- The same logger object with another behaviour of `Output`. -/
def log_Logger.withOutput (l : log_Logger) (f : Int → String → Option String) :
    log_Logger :=
  { l with Output := f }

/-- Spec wording of the debug helpers: the plain helper, gated on the debug
flag. -/
def EmitDebug_spec (emit : World → World) (w : World) : World :=
  if getDebug w then emit w else w

/-- How an emission may change the world `w` into `w2`: both cells are
left alone, and the trace grows by events among which there is at most one
`Output` call, each with calldepth 2 and made on the logger installed in `w`. -/
def Frame (w w2 : World) : Prop :=
  w2.globalLogger = w.globalLogger ∧
  w2.globalDebug = w.globalDebug ∧
  ∃ es, w2.trace = w.trace ++ es ∧ outputCalls es ≤ 1 ∧
    ∀ l d s r, Event.output l d s r ∈ es →
      d = 2 ∧ ∃ L, getLogger w = some L ∧ l = L.id ∧ r = L.Output d s

/-! ## Loggers and worlds used as concrete inputs -/

/-- A logger whose `Output` always returns a nil error. -/
def quietLogger : log_Logger :=
  { id := 1, Output := fun _ _ => none }

/-- A logger whose `Output` always returns an error. -/
def failingLogger : log_Logger :=
  { id := 2, Output := fun _ _ => some "write failed" }

/-- The formatter used as a concrete input: `goFmt`, with the empty string
on the formats that are not modelled. -/
def sampleFmt : Fmt GoValue :=
  goFmt (fun _ _ => "")

/-- A world with `failingLogger` installed and the debug flag on. -/
def debugWorld : World :=
  SetDebug true (SetLogger (some failingLogger) World.init)

/-! ## Basic facts -/

theorem getLogger_eq (w : World) : getLogger w = w.globalLogger := by
  unfold getLogger
  cases w.globalLogger <;> rfl

theorem getLogger_SetLogger (l : Option log_Logger) (w : World) :
    getLogger (SetLogger l w) = l := by
  cases l <;> rfl

theorem getDebug_SetDebug (b : Bool) (w : World) : getDebug (SetDebug b w) = b := by
  cases b <;> rfl

theorem getLogger_SetDebug (b : Bool) (w : World) :
    getLogger (SetDebug b w) = getLogger w := by
  simp [getLogger_eq, SetDebug]

theorem getDebug_SetLogger (l : Option log_Logger) (w : World) :
    getDebug (SetLogger l w) = getDebug w := by
  cases l <;> rfl

theorem trace_SetDebug (b : Bool) (w : World) : (SetDebug b w).trace = w.trace := rfl

theorem trace_SetLogger (l : Option log_Logger) (w : World) :
    (SetLogger l w).trace = w.trace := by
  cases l <;> rfl

theorem newEvents_append (w1 w2 : World) (es : List Event)
    (h : w2.trace = w1.trace ++ es) : newEvents w1 w2 = es := by
  simp [newEvents, h]

theorem newEvents_self (w : World) : newEvents w w = [] := by
  simp [newEvents]

/-- What an emission does when no logger is installed: nothing. -/
theorem run_of_none {α : Type} (fmt : Fmt α) (e : Emission α) (w : World) (h : getLogger w = none) :
    e.run fmt w = w := by
  cases e <;>
    simp [Emission.run, log, logln, logf, debug, debugln, debugf, debugFunc, h]

/-- What the lazy helper does when no logger is installed: nothing. -/
theorem debugFunc_of_none (p : Unit → String) (w : World) (h : getLogger w = none) :
    debugFunc p w = w := by
  simp [debugFunc, h]

/-- What the lazy helper does when the debug flag is off: nothing. -/
theorem debugFunc_of_off (p : Unit → String) (w : World) (h : getDebug w = false) :
    debugFunc p w = w := by
  simp only [debugFunc, h]
  cases getLogger w <;> simp

/-- What a debug helper does when the debug flag is off: nothing. -/
theorem debug_of_off {α : Type} (fmt : Fmt α) (v : List α) (format : String) (p : Unit → String)
    (w : World) (h : getDebug w = false) :
    debug fmt v w = w ∧ debugln fmt v w = w ∧ debugf fmt format v w = w ∧ debugFunc p w = w := by
  refine ⟨?_, ?_, ?_, ?_⟩ <;>
    simp only [debug, debugln, debugf, debugFunc, h] <;>
    cases getLogger w <;> simp

/-- The world after one `Output` call with string `s` on logger `L`. -/
theorem callOutput_trace (L : log_Logger) (d : Int) (s : String) (w : World) :
    (callOutput L d s w).2.trace = w.trace ++ [Event.output L.id d s (L.Output d s)] ∧
    (callOutput L d s w).2.globalLogger = w.globalLogger ∧
    (callOutput L d s w).2.globalDebug = w.globalDebug :=
  ⟨rfl, rfl, rfl⟩

/-- The plain helpers with a logger installed. -/
theorem log_of_some {α : Type} (fmt : Fmt α) (L : log_Logger) (v : List α) (format : String) (w : World)
    (h : getLogger w = some L) :
    log fmt v w = (callOutput L 2 (fmt.Sprint v) w).2 ∧
    logln fmt v w = (callOutput L 2 (fmt.Sprintln v) w).2 ∧
    logf fmt format v w = (callOutput L 2 (fmt.Sprintf format v) w).2 := by
  simp [log, logln, logf, h]

/-- The debug helpers with a logger installed and the debug flag on. -/
theorem debug_of_on {α : Type} (fmt : Fmt α) (L : log_Logger) (v : List α) (format : String) (w : World)
    (h : getLogger w = some L) (hd : getDebug w = true) :
    debug fmt v w = (callOutput L 2 (fmt.Sprint v) w).2 ∧
    debugln fmt v w = (callOutput L 2 (fmt.Sprintln v) w).2 ∧
    debugf fmt format v w = (callOutput L 2 (fmt.Sprintf format v) w).2 := by
  simp [debug, debugln, debugf, h, hd]

/-- The lazy helper with a logger installed and the debug flag on. -/
theorem debugFunc_of_on (L : log_Logger) (p : Unit → String) (w : World)
    (h : getLogger w = some L) (hd : getDebug w = true) :
    debugFunc p w =
      if p () ≠ "" then (callOutput L 2 (p ()) (callProducer p w).2).2
      else (callProducer p w).2 := by
  simp [debugFunc, h, hd, callProducer]

theorem frame_refl (w : World) : Frame w w :=
  ⟨rfl, rfl, [], by simp, by simp [outputCalls], by simp⟩

theorem frame_output (L : log_Logger) (s : String) (w : World)
    (h : getLogger w = some L) : Frame w (callOutput L 2 s w).2 := by
  refine ⟨rfl, rfl, [Event.output L.id 2 s (L.Output 2 s)], rfl,
    by simp [outputCalls, Event.isOutput], ?_⟩
  intro l d s2 r hmem
  simp only [List.mem_singleton, Event.output.injEq] at hmem
  obtain ⟨h1, h2, h3, h4⟩ := hmem
  subst h1 h2 h3 h4
  exact ⟨rfl, L, h, rfl, rfl⟩

theorem frame_produce (p : Unit → String) (w : World) :
    Frame w (callProducer p w).2 :=
  ⟨rfl, rfl, [Event.produce (p ())], rfl, by simp [outputCalls, Event.isOutput],
    by simp⟩

theorem frame_produce_output (L : log_Logger) (p : Unit → String) (w : World)
    (h : getLogger w = some L) :
    Frame w (callOutput L 2 (p ()) (callProducer p w).2).2 := by
  refine ⟨rfl, rfl, [Event.produce (p ()), Event.output L.id 2 (p ()) (L.Output 2 (p ()))],
    by simp [callOutput, callProducer], by simp [outputCalls, Event.isOutput], ?_⟩
  intro l d s2 r hmem
  simp only [List.mem_cons, List.mem_singleton, Event.output.injEq, reduceCtorEq,
    false_or, List.mem_nil_iff, or_false] at hmem
  obtain ⟨h1, h2, h3, h4⟩ := hmem
  subst h1 h2 h3 h4
  exact ⟨rfl, L, h, rfl, rfl⟩

/-- Every emission changes the world within `Frame`. -/
theorem run_frame {α : Type} (fmt : Fmt α) (e : Emission α) (w : World) : Frame w (e.run fmt w) := by
  cases hL : getLogger w with
  | none =>
    rw [run_of_none fmt e w hL]
    exact frame_refl w
  | some L =>
    cases e with
    | log v =>
      show Frame w (log fmt v w)
      rw [(log_of_some fmt L v "" w hL).1]; exact frame_output L _ w hL
    | logln v =>
      show Frame w (logln fmt v w)
      rw [(log_of_some fmt L v "" w hL).2.1]; exact frame_output L _ w hL
    | logf format v =>
      show Frame w (logf fmt format v w)
      rw [(log_of_some fmt L v format w hL).2.2]; exact frame_output L _ w hL
    | debug v =>
      show Frame w (debug fmt v w)
      cases hd : getDebug w with
      | false => rw [(debug_of_off fmt v "" (fun _ => "") w hd).1]; exact frame_refl w
      | true => rw [(debug_of_on fmt L v "" w hL hd).1]; exact frame_output L _ w hL
    | debugln v =>
      show Frame w (debugln fmt v w)
      cases hd : getDebug w with
      | false => rw [(debug_of_off fmt v "" (fun _ => "") w hd).2.1]; exact frame_refl w
      | true => rw [(debug_of_on fmt L v "" w hL hd).2.1]; exact frame_output L _ w hL
    | debugf format v =>
      show Frame w (debugf fmt format v w)
      cases hd : getDebug w with
      | false => rw [(debug_of_off fmt v format (fun _ => "") w hd).2.2.1]; exact frame_refl w
      | true => rw [(debug_of_on fmt L v format w hL hd).2.2]; exact frame_output L _ w hL
    | debugFunc p =>
      show Frame w (debugFunc p w)
      cases hd : getDebug w with
      | false => rw [(debug_of_off fmt [] "" p w hd).2.2.2]; exact frame_refl w
      | true =>
        rw [debugFunc_of_on L p w hL hd]
        by_cases hp : p () = ""
        · simp only [hp, ne_eq, not_true_eq_false, if_false]
          have := frame_produce p w
          simpa [callProducer, hp] using this
        · simp only [ne_eq, hp, not_false_eq_true, if_true]
          exact frame_produce_output L p w hL

/-! ## Runs of calls -/

/-- One call only appends to the trace, and each `Output` call it makes has
calldepth 2. -/
theorem call_trace {α : Type} (fmt : Fmt α) (c : Call α) (w : World) :
    ∃ es, (c.run fmt w).trace = w.trace ++ es ∧
      ∀ l d s r, Event.output l d s r ∈ es → d = 2 := by
  cases c with
  | setLogger logger => exact ⟨[], by simp [Call.run, trace_SetLogger], by simp⟩
  | setDebug b => exact ⟨[], by simp [Call.run, trace_SetDebug], by simp⟩
  | emit e =>
    obtain ⟨_, _, es, h1, _, h3⟩ := run_frame fmt e w
    exact ⟨es, h1, fun l d s r hmem => (h3 l d s r hmem).1⟩

/-- A run of calls only appends to the trace, and each `Output` call it makes
has calldepth 2. -/
theorem runCalls_trace {α : Type} (fmt : Fmt α) (cs : List (Call α)) (w : World) :
    ∃ es, (runCalls fmt cs w).trace = w.trace ++ es ∧
      ∀ l d s r, Event.output l d s r ∈ es → d = 2 := by
  induction cs generalizing w with
  | nil => exact ⟨[], by simp [runCalls], by simp⟩
  | cons c cs ih =>
    obtain ⟨es1, h1, h2⟩ := call_trace fmt c w
    obtain ⟨es2, h3, h4⟩ := ih (c.run fmt w)
    refine ⟨es1 ++ es2, by simp [runCalls, h3, h1], ?_⟩
    intro l d s r hmem
    rcases List.mem_append.mp hmem with hm | hm
    · exact h2 l d s r hm
    · exact h4 l d s r hm

/-- A call other than `SetLogger` keeps the logger cell, and each `Output`
call it makes is made on the installed logger. -/
theorem call_keeps_logger {α : Type} (fmt : Fmt α) (c : Call α) (w : World) (hc : c.isSetLogger = false) :
    getLogger (c.run fmt w) = getLogger w ∧
    ∃ es, (c.run fmt w).trace = w.trace ++ es ∧
      ∀ l d s r, Event.output l d s r ∈ es →
        ∃ L, getLogger w = some L ∧ l = L.id ∧ r = L.Output d s := by
  cases c with
  | setLogger logger => simp [Call.isSetLogger] at hc
  | setDebug b =>
    exact ⟨getLogger_SetDebug b w, [], by simp [Call.run, trace_SetDebug], by simp⟩
  | emit e =>
    obtain ⟨h0, _, es, h1, _, h3⟩ := run_frame fmt e w
    refine ⟨?_, es, h1, fun l d s r hmem => (h3 l d s r hmem).2⟩
    show getLogger (e.run fmt w) = getLogger w
    rw [getLogger_eq, getLogger_eq, h0]

/-- A run without `SetLogger` keeps the logger cell, and each `Output` call
it makes is made on the logger installed at its start. -/
theorem runCalls_keeps_logger {α : Type} (fmt : Fmt α) (cs : List (Call α)) (w : World)
    (hcs : ∀ c ∈ cs, c.isSetLogger = false) :
    getLogger (runCalls fmt cs w) = getLogger w ∧
    ∃ es, (runCalls fmt cs w).trace = w.trace ++ es ∧
      ∀ l d s r, Event.output l d s r ∈ es →
        ∃ L, getLogger w = some L ∧ l = L.id ∧ r = L.Output d s := by
  induction cs generalizing w with
  | nil => exact ⟨rfl, [], by simp [runCalls], by simp⟩
  | cons c cs ih =>
    obtain ⟨g1, es1, h1, h2⟩ := call_keeps_logger fmt c w (hcs c (List.mem_cons_self c cs))
    obtain ⟨g2, es2, h3, h4⟩ :=
      ih (c.run fmt w) (fun c2 hc2 => hcs c2 (List.mem_cons_of_mem c hc2))
    refine ⟨by simp [runCalls, g2, g1], es1 ++ es2, by simp [runCalls, h3, h1], ?_⟩
    intro l d s r hmem
    rcases List.mem_append.mp hmem with hm | hm
    · exact h2 l d s r hm
    · obtain ⟨L, hL, hl, hr⟩ := h4 l d s r hm
      exact ⟨L, g1 ▸ hL, hl, hr⟩

/-! ## Events of one emission, up to the returned errors -/

theorem newEvents_callOutput (L : log_Logger) (d : Int) (s : String) (w : World) :
    newEvents w (callOutput L d s w).2 = [Event.output L.id d s (L.Output d s)] :=
  newEvents_append _ _ _ rfl

theorem newEvents_callProducer (p : Unit → String) (w : World) :
    newEvents w (callProducer p w).2 = [Event.produce (p ())] :=
  newEvents_append _ _ _ rfl

theorem newEvents_produce_output (L : log_Logger) (p : Unit → String) (w : World) :
    newEvents w (callOutput L 2 (p ()) (callProducer p w).2).2
      = [Event.produce (p ()), Event.output L.id 2 (p ()) (L.Output 2 (p ()))] :=
  newEvents_append _ _ _ (by simp [callOutput, callProducer])

/-- Two worlds with the same debug flag, holding loggers of the same
identity: an emission makes the same calls from both, up to the errors the
`Output` calls return. -/
theorem run_forgetErr {α : Type} (fmt : Fmt α) (e : Emission α) (w1 w2 : World) (L1 L2 : log_Logger)
    (h1 : getLogger w1 = some L1) (h2 : getLogger w2 = some L2)
    (hid : L1.id = L2.id) (hd : getDebug w1 = getDebug w2) :
    (newEvents w1 (e.run fmt w1)).map Event.forgetErr
      = (newEvents w2 (e.run fmt w2)).map Event.forgetErr := by
  cases e with
  | log v =>
    show (newEvents w1 (log fmt v w1)).map _ = (newEvents w2 (log fmt v w2)).map _
    rw [(log_of_some fmt L1 v "" w1 h1).1, (log_of_some fmt L2 v "" w2 h2).1,
      newEvents_callOutput, newEvents_callOutput]
    simp [Event.forgetErr, hid]
  | logln v =>
    show (newEvents w1 (logln fmt v w1)).map _ = (newEvents w2 (logln fmt v w2)).map _
    rw [(log_of_some fmt L1 v "" w1 h1).2.1, (log_of_some fmt L2 v "" w2 h2).2.1,
      newEvents_callOutput, newEvents_callOutput]
    simp [Event.forgetErr, hid]
  | logf format v =>
    show (newEvents w1 (logf fmt format v w1)).map _ = (newEvents w2 (logf fmt format v w2)).map _
    rw [(log_of_some fmt L1 v format w1 h1).2.2, (log_of_some fmt L2 v format w2 h2).2.2,
      newEvents_callOutput, newEvents_callOutput]
    simp [Event.forgetErr, hid]
  | debug v =>
    show (newEvents w1 (debug fmt v w1)).map _ = (newEvents w2 (debug fmt v w2)).map _
    cases hd1 : getDebug w1 with
    | false =>
      rw [(debug_of_off fmt v "" (fun _ => "") w1 hd1).1,
        (debug_of_off fmt v "" (fun _ => "") w2 (hd ▸ hd1)).1, newEvents_self, newEvents_self]
    | true =>
      rw [(debug_of_on fmt L1 v "" w1 h1 hd1).1, (debug_of_on fmt L2 v "" w2 h2 (hd ▸ hd1)).1,
        newEvents_callOutput, newEvents_callOutput]
      simp [Event.forgetErr, hid]
  | debugln v =>
    show (newEvents w1 (debugln fmt v w1)).map _ = (newEvents w2 (debugln fmt v w2)).map _
    cases hd1 : getDebug w1 with
    | false =>
      rw [(debug_of_off fmt v "" (fun _ => "") w1 hd1).2.1,
        (debug_of_off fmt v "" (fun _ => "") w2 (hd ▸ hd1)).2.1, newEvents_self, newEvents_self]
    | true =>
      rw [(debug_of_on fmt L1 v "" w1 h1 hd1).2.1, (debug_of_on fmt L2 v "" w2 h2 (hd ▸ hd1)).2.1,
        newEvents_callOutput, newEvents_callOutput]
      simp [Event.forgetErr, hid]
  | debugf format v =>
    show (newEvents w1 (debugf fmt format v w1)).map _ = (newEvents w2 (debugf fmt format v w2)).map _
    cases hd1 : getDebug w1 with
    | false =>
      rw [(debug_of_off fmt v format (fun _ => "") w1 hd1).2.2.1,
        (debug_of_off fmt v format (fun _ => "") w2 (hd ▸ hd1)).2.2.1, newEvents_self,
        newEvents_self]
    | true =>
      rw [(debug_of_on fmt L1 v format w1 h1 hd1).2.2,
        (debug_of_on fmt L2 v format w2 h2 (hd ▸ hd1)).2.2,
        newEvents_callOutput, newEvents_callOutput]
      simp [Event.forgetErr, hid]
  | debugFunc p =>
    show (newEvents w1 (debugFunc p w1)).map _ = (newEvents w2 (debugFunc p w2)).map _
    cases hd1 : getDebug w1 with
    | false =>
      rw [(debug_of_off fmt [] "" p w1 hd1).2.2.2,
        (debug_of_off fmt [] "" p w2 (hd ▸ hd1)).2.2.2, newEvents_self, newEvents_self]
    | true =>
      rw [debugFunc_of_on L1 p w1 h1 hd1, debugFunc_of_on L2 p w2 h2 (hd ▸ hd1)]
      by_cases hp : p () = ""
      · simp only [hp, ne_eq, not_true_eq_false, if_false]
        rw [newEvents_callProducer, newEvents_callProducer]
      · simp only [ne_eq, hp, not_false_eq_true, if_true]
        rw [newEvents_produce_output, newEvents_produce_output]
        simp [Event.forgetErr, hid]

/-! ## Package `fmt` at the messages of the claims -/

theorem goFmt_Sprint_x (rest : String → List GoValue → String) :
    (goFmt rest).Sprint [GoValue.str "x"] = "x" := by
  show fmt_Sprint [GoValue.str "x"] = "x"
  decide

theorem goFmt_Sprintln_x (rest : String → List GoValue → String) :
    (goFmt rest).Sprintln [GoValue.str "x"] = "x\n" := by
  show fmt_Sprintln [GoValue.str "x"] = "x\n"
  decide

theorem goFmt_Sprintf_3y (rest : String → List GoValue → String) :
    (goFmt rest).Sprintf "%d-%s" [GoValue.int 3, GoValue.str "y"] = "3-y" := by
  have h : fmt_Sprintf "%d-%s" [GoValue.int 3, GoValue.str "y"] = some "3-y" := by decide
  show (fmt_Sprintf "%d-%s" [GoValue.int 3, GoValue.str "y"]).getD
    (rest "%d-%s" [GoValue.int 3, GoValue.str "y"]) = "3-y"
  rw [h]
  rfl

/-- Formats with a width, or with a verb outside `v`, `d`, `s`, `t`, are left
to the parameter of `goFmt`. -/
theorem fmt_Sprintf_unmodelled :
    fmt_Sprintf "%5d" [GoValue.int 42] = none ∧
    fmt_Sprintf "%x" [GoValue.int 255] = none ∧
    fmt_Sprintf "%q" [GoValue.str "x"] = none := by
  decide

/-! ## The claims -/

/-- C1: when no logger is installed, each of the seven helpers (any
`Emission`) leaves the world as it is, trace included, so it makes no `Output`
call and no producer call; this holds for both values of the debug flag.  The
initial world and every world reached by `SetLogger(nil)`, followed by any
calls other than `SetLogger`, have no logger installed. -/
theorem no_logger_no_calls {α : Type} (fmt : Fmt α) (e : Emission α) (b : Bool) :
    (∀ w, getLogger w = none →
      e.run fmt (SetDebug b w) = SetDebug b w ∧
      outputCalls (newEvents (SetDebug b w) (e.run fmt (SetDebug b w))) = 0 ∧
      producerCalls (newEvents (SetDebug b w) (e.run fmt (SetDebug b w))) = 0) ∧
    getLogger World.init = none ∧
    (∀ (w : World) (cs : List (Call α)), (∀ c ∈ cs, c.isSetLogger = false) →
      getLogger (runCalls fmt cs (SetLogger none w)) = none) := by
  refine ⟨?_, rfl, ?_⟩
  · intro w h
    have hb : getLogger (SetDebug b w) = none := by rw [getLogger_SetDebug, h]
    rw [run_of_none fmt e _ hb, newEvents_self]
    exact ⟨rfl, rfl, rfl⟩
  · intro w cs hcs
    rw [(runCalls_keeps_logger fmt cs _ hcs).1, getLogger_SetLogger]

theorem no_logger_no_calls_witness :
    getLogger World.init = none ∧
    (Emission.debugFunc (fun _ => "costly")).run sampleFmt (SetDebug true World.init)
      = SetDebug true World.init :=
  ⟨rfl, ((no_logger_no_calls sampleFmt (Emission.debugFunc (fun _ => "costly")) true).1
    World.init rfl).1⟩

/-- C2: after `SetLogger(L)` with a non-nil `L`, for every list of operands
and whatever package `fmt` computes, `log(v...)` makes exactly one call
`L.Output(2, fmt.Sprint(v...))`, `logln(v...)` exactly one call with
`fmt.Sprintln(v...)` and `logf(format, v...)` exactly one call with
`fmt.Sprintf(format, v...)`.  In particular, with package `fmt` on strings and
integers, `log("x")` delivers `"x"`, `logln("x")` delivers `"x\n"` and
`logf("%d-%s", 3, "y")` delivers `"3-y"`. -/
theorem log_delivers_once {α : Type} (fmt : Fmt α) (L : log_Logger) (v : List α)
    (format : String) (w : World) (rest : String → List GoValue → String) :
    (log fmt v (SetLogger (some L) w)).trace
      = w.trace ++ [Event.output L.id 2 (fmt.Sprint v) (L.Output 2 (fmt.Sprint v))] ∧
    (logln fmt v (SetLogger (some L) w)).trace
      = w.trace ++ [Event.output L.id 2 (fmt.Sprintln v) (L.Output 2 (fmt.Sprintln v))] ∧
    (logf fmt format v (SetLogger (some L) w)).trace
      = w.trace ++ [Event.output L.id 2 (fmt.Sprintf format v)
          (L.Output 2 (fmt.Sprintf format v))] ∧
    (log (goFmt rest) [GoValue.str "x"] (SetLogger (some L) w)).trace
      = w.trace ++ [Event.output L.id 2 "x" (L.Output 2 "x")] ∧
    (logln (goFmt rest) [GoValue.str "x"] (SetLogger (some L) w)).trace
      = w.trace ++ [Event.output L.id 2 "x\n" (L.Output 2 "x\n")] ∧
    (logf (goFmt rest) "%d-%s" [GoValue.int 3, GoValue.str "y"] (SetLogger (some L) w)).trace
      = w.trace ++ [Event.output L.id 2 "3-y" (L.Output 2 "3-y")] := by
  have h : getLogger (SetLogger (some L) w) = some L := getLogger_SetLogger _ w
  have key : ∀ {β : Type} (g : Fmt β) (v : List β) (format : String),
      (log g v (SetLogger (some L) w)).trace
        = w.trace ++ [Event.output L.id 2 (g.Sprint v) (L.Output 2 (g.Sprint v))] ∧
      (logln g v (SetLogger (some L) w)).trace
        = w.trace ++ [Event.output L.id 2 (g.Sprintln v) (L.Output 2 (g.Sprintln v))] ∧
      (logf g format v (SetLogger (some L) w)).trace
        = w.trace ++ [Event.output L.id 2 (g.Sprintf format v)
            (L.Output 2 (g.Sprintf format v))] := by
    intro β g v format
    obtain ⟨h1, h2, h3⟩ := log_of_some g L v format _ h
    rw [h1, h2, h3]
    exact ⟨rfl, rfl, rfl⟩
  refine ⟨(key fmt v format).1, (key fmt v format).2.1, (key fmt v format).2.2, ?_, ?_, ?_⟩
  · have := (key (goFmt rest) [GoValue.str "x"] "").1
    rwa [goFmt_Sprint_x] at this
  · have := (key (goFmt rest) [GoValue.str "x"] "").2.1
    rwa [goFmt_Sprintln_x] at this
  · have := (key (goFmt rest) [GoValue.int 3, GoValue.str "y"] "%d-%s").2.2
    rwa [goFmt_Sprintf_3y] at this

/-- C3: with a non-nil logger `L` installed, for every list of operands and
whatever package `fmt` computes: after `SetDebug(false)` none of `debug`,
`debugln`, `debugf` makes a call of `L.Output`; after `SetDebug(true)` each
makes exactly one call, `L.Output(2, m)` with `m` the message `fmt.Sprint`,
`fmt.Sprintln` or `fmt.Sprintf` returns.  With package `fmt` on strings,
`debug("x")` delivers `"x"`. -/
theorem debug_gated_on_flag {α : Type} (fmt : Fmt α) (L : log_Logger) (v : List α)
    (format : String) (w : World) (rest : String → List GoValue → String)
    (h : getLogger w = some L) :
    (debug fmt v (SetDebug false w)).trace = w.trace ∧
    (debugln fmt v (SetDebug false w)).trace = w.trace ∧
    (debugf fmt format v (SetDebug false w)).trace = w.trace ∧
    (debug fmt v (SetDebug true w)).trace
      = w.trace ++ [Event.output L.id 2 (fmt.Sprint v) (L.Output 2 (fmt.Sprint v))] ∧
    (debugln fmt v (SetDebug true w)).trace
      = w.trace ++ [Event.output L.id 2 (fmt.Sprintln v) (L.Output 2 (fmt.Sprintln v))] ∧
    (debugf fmt format v (SetDebug true w)).trace
      = w.trace ++ [Event.output L.id 2 (fmt.Sprintf format v)
          (L.Output 2 (fmt.Sprintf format v))] ∧
    (debug (goFmt rest) [GoValue.str "x"] (SetDebug false w)).trace = w.trace ∧
    (debug (goFmt rest) [GoValue.str "x"] (SetDebug true w)).trace
      = w.trace ++ [Event.output L.id 2 "x" (L.Output 2 "x")] := by
  have hoff := debug_of_off fmt v format (fun _ => "") (SetDebug false w)
    (getDebug_SetDebug false w)
  have hoffx := (debug_of_off (goFmt rest) [GoValue.str "x"] "" (fun _ => "")
    (SetDebug false w) (getDebug_SetDebug false w)).1
  have hL : getLogger (SetDebug true w) = some L := by rw [getLogger_SetDebug, h]
  have hon := debug_of_on fmt L v format (SetDebug true w) hL (getDebug_SetDebug true w)
  have hx := (debug_of_on (goFmt rest) L [GoValue.str "x"] "" (SetDebug true w) hL
    (getDebug_SetDebug true w)).1
  rw [hoff.1, hoff.2.1, hoff.2.2.1, hon.1, hon.2.1, hon.2.2, hoffx, hx, goFmt_Sprint_x]
  exact ⟨rfl, rfl, rfl, rfl, rfl, rfl, rfl, rfl⟩

theorem debug_gated_on_flag_witness :
    (debug sampleFmt [GoValue.str "x"] (SetDebug false debugWorld)).trace = [] ∧
    (debug sampleFmt [GoValue.str "x"] (SetDebug true debugWorld)).trace
      = [Event.output 2 2 "x" (some "write failed")] :=
  have h := debug_gated_on_flag sampleFmt failingLogger [GoValue.str "x"] "" debugWorld
    (fun _ _ => "") rfl
  ⟨h.2.2.2.2.2.2.1, h.2.2.2.2.2.2.2⟩

/-- C4: `debugFunc(p)` does not call `p` when no logger is installed or the
debug flag is false.  With a logger `L` installed and the flag true it calls
`p` exactly once; it then makes exactly one call `L.Output(2, p())` when the
result is a non-empty string, and no `Output` call when the result is the
empty string. -/
theorem debugFunc_lazy (p : Unit → String) (w : World) :
    ((getLogger w = none ∨ getDebug w = false) →
      debugFunc p w = w ∧
      producerCalls (newEvents w (debugFunc p w)) = 0 ∧
      outputCalls (newEvents w (debugFunc p w)) = 0) ∧
    (∀ L, getLogger w = some L → getDebug w = true →
      producerCalls (newEvents w (debugFunc p w)) = 1 ∧
      (p () ≠ "" →
        (debugFunc p w).trace
          = w.trace ++ [Event.produce (p ()), Event.output L.id 2 (p ()) (L.Output 2 (p ()))] ∧
        outputCalls (newEvents w (debugFunc p w)) = 1) ∧
      (p () = "" →
        (debugFunc p w).trace = w.trace ++ [Event.produce ""] ∧
        outputCalls (newEvents w (debugFunc p w)) = 0)) := by
  constructor
  · intro h
    have hw : debugFunc p w = w := by
      rcases h with h | h
      · exact debugFunc_of_none p w h
      · exact debugFunc_of_off p w h
    rw [hw, newEvents_self]
    exact ⟨rfl, rfl, rfl⟩
  · intro L hL hd
    rw [debugFunc_of_on L p w hL hd]
    by_cases hp : p () = ""
    · have ht : (callProducer p w).2.trace = w.trace ++ [Event.produce ""] := by
        simp [callProducer, hp]
      simp only [hp, ne_eq, not_true_eq_false, if_false, false_implies, true_implies,
        true_and]
      rw [newEvents_append _ _ _ ht]
      exact ⟨rfl, ht, rfl⟩
    · have ht : (callOutput L 2 (p ()) (callProducer p w).2).2.trace
          = w.trace ++ [Event.produce (p ()), Event.output L.id 2 (p ()) (L.Output 2 (p ()))] := by
        simp [callOutput, callProducer]
      simp only [ne_eq, hp, not_false_eq_true, if_true, true_implies, false_implies,
        and_true]
      rw [newEvents_append _ _ _ ht]
      exact ⟨rfl, ht, rfl⟩

theorem debugFunc_lazy_witness :
    producerCalls (newEvents World.init (debugFunc (fun _ => "costly") World.init)) = 0 ∧
    producerCalls (newEvents debugWorld (debugFunc (fun _ => "costly") debugWorld)) = 1 ∧
    (debugFunc (fun _ => "costly") debugWorld).trace
      = [Event.produce "costly", Event.output 2 2 "costly" (some "write failed")] ∧
    (debugFunc (fun _ => "") debugWorld).trace = [Event.produce ""] :=
  have h0 := (debugFunc_lazy (fun _ => "costly") World.init).1 (Or.inl rfl)
  have h1 := (debugFunc_lazy (fun _ => "costly") debugWorld).2 failingLogger rfl rfl
  have h2 := (debugFunc_lazy (fun _ => "") debugWorld).2 failingLogger rfl rfl
  ⟨h0.2.1, h1.1, (h1.2.1 (by decide)).1, (h2.2.2 rfl).1⟩

/-- C5: with a logger `L` installed, whatever `L.Output` returns (a nil error or
an error), each of the seven helpers leaves the logger cell and the debug flag
as they were and makes at most one `Output` call (no retry).  The error is not
propagated: with any other return behaviour `f` of `Output` on the same
logger, the helper ends with the same debug flag and makes the same calls, up
to the errors those calls return.  The helpers are total functions on worlds,
so each call returns. -/
theorem output_error_discarded {α : Type} (fmt : Fmt α) (L : log_Logger) (e : Emission α)
    (w : World)
    (h : getLogger w = some L) :
    (e.run fmt w).globalLogger = w.globalLogger ∧
    (e.run fmt w).globalDebug = w.globalDebug ∧
    outputCalls (newEvents w (e.run fmt w)) ≤ 1 ∧
    ∀ f : Int → String → Option String,
      getLogger (e.run fmt (SetLogger (some (L.withOutput f)) w)) = some (L.withOutput f) ∧
      (e.run fmt (SetLogger (some (L.withOutput f)) w)).globalDebug = w.globalDebug ∧
      (newEvents w (e.run fmt (SetLogger (some (L.withOutput f)) w))).map Event.forgetErr
        = (newEvents w (e.run fmt w)).map Event.forgetErr := by
  obtain ⟨h1, h2, es, h3, h4, _⟩ := run_frame fmt e w
  refine ⟨h1, h2, by rw [newEvents_append _ _ _ h3]; exact h4, ?_⟩
  intro f
  have hf : getLogger (SetLogger (some (L.withOutput f)) w) = some (L.withOutput f) :=
    getLogger_SetLogger _ w
  have hdf : getDebug (SetLogger (some (L.withOutput f)) w) = getDebug w :=
    getDebug_SetLogger _ w
  obtain ⟨g1, g2, _⟩ := run_frame fmt e (SetLogger (some (L.withOutput f)) w)
  refine ⟨by rw [getLogger_eq, g1]; rfl, by rw [g2]; rfl, ?_⟩
  have hn : newEvents w (e.run fmt (SetLogger (some (L.withOutput f)) w))
      = newEvents (SetLogger (some (L.withOutput f)) w)
          (e.run fmt (SetLogger (some (L.withOutput f)) w)) := by
    simp [newEvents, trace_SetLogger]
  rw [hn]
  exact run_forgetErr fmt e _ w (L.withOutput f) L hf h rfl hdf

theorem output_error_discarded_witness :
    (logf sampleFmt "%d-%s" [GoValue.int 3, GoValue.str "y"] debugWorld).trace
      = [Event.output 2 2 "3-y" (some "write failed")] ∧
    (logf sampleFmt "%d-%s" [GoValue.int 3, GoValue.str "y"] debugWorld).globalDebug = 1 ∧
    outputCalls (newEvents debugWorld
      (logf sampleFmt "%d-%s" [GoValue.int 3, GoValue.str "y"] debugWorld)) ≤ 1 :=
  have h := output_error_discarded sampleFmt failingLogger
    (Emission.logf "%d-%s" [GoValue.int 3, GoValue.str "y"]) debugWorld rfl
  ⟨by decide, h.2.1, h.2.2.1⟩

/-- C6: for non-nil loggers `L1` and `L2` and every starting world,
`SetLogger(L1)` followed by `SetLogger(L2)` reaches the same world as
`SetLogger(L2)` alone, and `getLogger` then returns `L2`.  In any later run of
emissions and `SetDebug` calls, every `Output` call is made on `L2` and
returns what `L2.Output` returns; it is never made on `L1` when `L1` is
another logger. -/
theorem setLogger_replaces {α : Type} (fmt : Fmt α) (L1 L2 : log_Logger) (w : World) :
    SetLogger (some L2) (SetLogger (some L1) w) = SetLogger (some L2) w ∧
    getLogger (SetLogger (some L2) (SetLogger (some L1) w)) = some L2 ∧
    ∀ cs : List (Call α), (∀ c ∈ cs, c.isSetLogger = false) →
      ∀ l d s r,
        Event.output l d s r
          ∈ newEvents w (runCalls fmt cs (SetLogger (some L2) (SetLogger (some L1) w))) →
        l = L2.id ∧ r = L2.Output d s ∧ (L1.id ≠ L2.id → l ≠ L1.id) := by
  refine ⟨rfl, rfl, ?_⟩
  intro cs hcs l d s r hmem
  obtain ⟨_, es, h1, h2⟩ :=
    runCalls_keeps_logger fmt cs (SetLogger (some L2) (SetLogger (some L1) w)) hcs
  have ht : (runCalls fmt cs (SetLogger (some L2) (SetLogger (some L1) w))).trace
      = w.trace ++ es := h1
  rw [newEvents_append _ _ _ ht] at hmem
  obtain ⟨L, hL, hl, hr⟩ := h2 l d s r hmem
  have hLL : L = L2 := by
    have : some L2 = some L := hL
    exact (Option.some.inj this).symm
  subst hLL
  exact ⟨hl, hr, fun hne heq => hne (heq.symm.trans hl)⟩

theorem setLogger_replaces_witness :
    Event.output 2 2 "x" (some "write failed")
      ∈ newEvents World.init
          (runCalls sampleFmt
            [Call.setDebug true, Call.emit (Emission.debug [GoValue.str "x"])]
            (SetLogger (some failingLogger) (SetLogger (some quietLogger) World.init))) ∧
    (2 : Nat) = failingLogger.id ∧ (2 : Nat) ≠ quietLogger.id :=
  have h := (setLogger_replaces sampleFmt quietLogger failingLogger World.init).2.2
    [Call.setDebug true, Call.emit (Emission.debug [GoValue.str "x"])]
    (by decide) 2 2 "x" (some "write failed") (by decide)
  ⟨by decide, h.1, h.2.2 (by decide)⟩

/-- C7: the logger cell and the debug flag are independent: `SetDebug(b)`
leaves what `getLogger` returns unchanged, `SetLogger(l)` leaves what
`getDebug` returns unchanged, and the two setters commute. -/
theorem logger_debug_independent (l : Option log_Logger) (b : Bool) (w : World) :
    getLogger (SetDebug b w) = getLogger w ∧
    getDebug (SetLogger l w) = getDebug w ∧
    SetLogger l (SetDebug b w) = SetDebug b (SetLogger l w) := by
  refine ⟨getLogger_SetDebug b w, getDebug_SetLogger l w, ?_⟩
  cases l <;> rfl

/-- C8: every `Output` call made by any of the seven helpers, in every world
and for every arguments, has calldepth 2; the same holds for every `Output`
call made in any run of calls. -/
theorem calldepth_is_two {α : Type} (fmt : Fmt α) (l : Nat) (d : Int) (s : String)
    (r : Option String) :
    (∀ (e : Emission α) (w : World), Event.output l d s r ∈ newEvents w (e.run fmt w) → d = 2) ∧
    (∀ (cs : List (Call α)) (w : World),
      Event.output l d s r ∈ newEvents w (runCalls fmt cs w) → d = 2) := by
  constructor
  · intro e w hmem
    obtain ⟨_, _, es, h1, _, h3⟩ := run_frame fmt e w
    rw [newEvents_append _ _ _ h1] at hmem
    exact (h3 l d s r hmem).1
  · intro cs w hmem
    obtain ⟨es, h1, h2⟩ := runCalls_trace fmt cs w
    rw [newEvents_append _ _ _ h1] at hmem
    exact h2 l d s r hmem

theorem calldepth_is_two_witness :
    Event.output 2 2 "x\n" (some "write failed")
      ∈ newEvents debugWorld (debugln sampleFmt [GoValue.str "x"] debugWorld) ∧ (2 : Int) = 2 :=
  ⟨by decide, (calldepth_is_two sampleFmt 2 2 "x\n" (some "write failed")).1
    (Emission.debugln [GoValue.str "x"]) debugWorld (by decide)⟩

/-- C10: the debug helpers are the plain helpers gated on the debug flag.  When
the flag is true, `debug`, `debugln`, `debugf` reach the same world (same
`Output` calls, same cells) as `log`, `logln`, `logf`; when it is false they
leave the world as it is, making no `Output` call, with or without a logger. -/
theorem debug_is_gated_log {α : Type} (fmt : Fmt α) (v : List α) (format : String)
    (w : World) :
    (getDebug w = true →
      debug fmt v w = log fmt v w ∧ debugln fmt v w = logln fmt v w ∧
      debugf fmt format v w = logf fmt format v w) ∧
    (getDebug w = false →
      debug fmt v w = w ∧ debugln fmt v w = w ∧ debugf fmt format v w = w) ∧
    debug fmt v w = EmitDebug_spec (log fmt v) w ∧
    debugln fmt v w = EmitDebug_spec (logln fmt v) w ∧
    debugf fmt format v w = EmitDebug_spec (logf fmt format v) w := by
  refine ⟨?_, ?_, ?_, ?_, ?_⟩
  · intro hd
    cases hL : getLogger w <;> simp [debug, debugln, debugf, log, logln, logf, hL, hd]
  · intro hd
    obtain ⟨h1, h2, h3, _⟩ := debug_of_off fmt v format (fun _ => "") w hd
    exact ⟨h1, h2, h3⟩
  all_goals
    cases hd : getDebug w <;> cases hL : getLogger w <;>
      simp [EmitDebug_spec, debug, debugln, debugf, log, logln, logf, hL, hd]

theorem debug_is_gated_log_witness :
    debug sampleFmt [GoValue.str "x"] debugWorld = log sampleFmt [GoValue.str "x"] debugWorld ∧
    debug sampleFmt [GoValue.str "x"] (SetDebug false debugWorld)
      = SetDebug false debugWorld :=
  ⟨((debug_is_gated_log sampleFmt [GoValue.str "x"] "" debugWorld).1 rfl).1,
    ((debug_is_gated_log sampleFmt [GoValue.str "x"] "" (SetDebug false debugWorld)).2.1 rfl).1⟩

end mgo
